import Mathlib

/-!
Shallow embedding of the AI-assisted resume module of `rendercv-AI`
(`src/rendercv/ai/client.py`, `src/rendercv/ai/service.py`,
`src/rendercv/ai/parser.py` and the carry-over logic of
`src/rendercv/cli/ai_command/ai_command.py`), together with theorems
settling the specification claims about it.

Modelling conventions:
* Python dictionaries become association lists (`Doc`) whose operations
  mirror Python dict semantics (membership, lookup, assignment in place).
* JSON values become the inductive `Json`; `json.loads` becomes the
  executable recursive-descent parser `jsonLoads` (integers only, the
  common string escapes; this suffices for the replies under study).
* Python string `strip`/`lower`/`upper` become `pyStrip`/`pyLower`/`pyUpper`
  over the ASCII whitespace set (the Unicode-only whitespace code points
  are not modelled).
* The remote model reply and the process environment are explicit
  parameters; the number of provider calls an operation performs is
  returned alongside its result.
-/

/-- JSON values, as produced by `json.loads` in the source. -/
inductive Json where
  | null
  | bool (b : Bool)
  | num (n : Int)
  | str (s : String)
  | arr (elems : List Json)
  | obj (fields : List (String × Json))

/-- A Python dictionary with string keys: an ordered association list
(no duplicate keys arise from the operations modelled here). -/
abbrev Doc := List (String × Json)

/-- Python `k in d` for a dict. -/
def Doc.hasKey : Doc → String → Bool
  | [], _ => false
  | (k', _) :: t, k => k' = k || Doc.hasKey t k

/-- Python `d[k]` / `d.get(k)` lookup. -/
def Doc.getKey : Doc → String → Option Json
  | [], _ => none
  | (k', v) :: t, k => if k' = k then some v else Doc.getKey t k

/-- Python `d[k] = v`: replace the existing binding in place, else append. -/
def Doc.setKey : Doc → String → Json → Doc
  | [], k, v => [(k, v)]
  | (k', v') :: t, k, v =>
    if k' = k then (k, v) :: t else (k', v') :: Doc.setKey t k v

/-- The ASCII whitespace characters stripped by Python `str.strip()`. -/
def isPySpace (c : Char) : Bool :=
  c = ' ' || c = '\t' || c = '\n' || c = '\r' || c = '\x0b' || c = '\x0c'

/-- `str.strip()` on a character list: drop whitespace from both ends. -/
def stripChars (l : List Char) : List Char :=
  List.rdropWhile isPySpace (l.dropWhile isPySpace)

/-- Python `s.strip()`. -/
def pyStrip (s : String) : String :=
  String.mk (stripChars s.data)

/-- Python falsiness of `s.strip()`: the string is blank (empty or
whitespace-only). -/
def pyIsBlank (s : String) : Bool :=
  (pyStrip s).data.isEmpty

/-- Python `s.lower()` (ASCII). -/
def pyLower (s : String) : String :=
  String.mk (s.data.map Char.toLower)

/-- Python `s.upper()` (ASCII). -/
def pyUpper (s : String) : String :=
  String.mk (s.data.map Char.toUpper)

/- ### Basic lemmas about `Doc` operations -/

theorem Doc.getKey_setKey_same (d : Doc) (k : String) (v : Json) :
    (d.setKey k v).getKey k = some v := by
  induction d with
  | nil => simp [Doc.setKey, Doc.getKey]
  | cons p t ih =>
    obtain ⟨k', v'⟩ := p
    by_cases h : k' = k
    · simp [Doc.setKey, Doc.getKey, h]
    · simp [Doc.setKey, Doc.getKey, h, ih]

theorem Doc.getKey_setKey_other (d : Doc) (k k' : String) (v : Json)
    (hne : k' ≠ k) : (d.setKey k v).getKey k' = d.getKey k' := by
  induction d with
  | nil => simp [Doc.setKey, Doc.getKey, Ne.symm hne]
  | cons p t ih =>
    obtain ⟨k₀, v₀⟩ := p
    by_cases h : k₀ = k
    · subst h
      simp [Doc.setKey, Doc.getKey, Ne.symm hne]
    · simp only [Doc.setKey, h, if_false, Doc.getKey]
      by_cases h' : k₀ = k'
      · simp [h']
      · simp [h', ih]

theorem Doc.hasKey_setKey (d : Doc) (k k' : String) (v : Json) :
    (d.setKey k v).hasKey k' = ((k : String) = k' || d.hasKey k') := by
  induction d with
  | nil => simp [Doc.setKey, Doc.hasKey]
  | cons p t ih =>
    obtain ⟨k₀, v₀⟩ := p
    by_cases h : k₀ = k
    · subst h
      simp [Doc.setKey, Doc.hasKey]
    · simp only [Doc.setKey, h, if_false, Doc.hasKey, ih]
      cases hq : (decide (k₀ = k')) <;> simp [hq, Bool.or_assoc, Bool.or_comm]

theorem Doc.getKey_isSome_of_hasKey (d : Doc) (k : String)
    (h : d.hasKey k = true) : (d.getKey k).isSome = true := by
  induction d with
  | nil => simp [Doc.hasKey] at h
  | cons p t ih =>
    obtain ⟨k₀, v₀⟩ := p
    simp only [Doc.hasKey, Bool.or_eq_true, decide_eq_true_eq] at h
    by_cases hk : k₀ = k
    · simp [Doc.getKey, hk]
    · have := ih (h.resolve_left hk)
      simp [Doc.getKey, hk, this]

theorem Doc.getKey_eq_none_of_not_hasKey (d : Doc) (k : String)
    (h : d.hasKey k = false) : d.getKey k = none := by
  induction d with
  | nil => simp [Doc.getKey]
  | cons p t ih =>
    obtain ⟨k₀, v₀⟩ := p
    simp only [Doc.hasKey, Bool.or_eq_false_iff, decide_eq_false_iff_not] at h
    simp [Doc.getKey, h.1, ih h.2]

/- ### Client factory (`src/rendercv/ai/client.py`, `get_ai_client`) -/

/-- The process environment: an association list of variable/value pairs,
looked up like `os.environ.get`. -/
abbrev Env := List (String × String)

/-- `os.environ.get(k)`. -/
def envGet : Env → String → Option String
  | [], _ => none
  | (k', v) :: t, k => if k' = k then some v else envGet t k

/-- `os.environ.get(k)` followed by Python truthiness: a set, non-empty
value. -/
def envTruthy (env : Env) (k : String) : Option String :=
  match envGet env k with
  | some v => if v = "" then none else some v
  | none => none

/-- Python truthiness of an `str | None` value. -/
def strOptTruthy : Option String → Bool
  | some s => s ≠ ""
  | none => false

/-- `AIConfig` from `client.py` (provider, api_key, optional model). -/
structure AIConfig where
  provider : String
  api_key : String
  model : Option String
deriving Repr, DecidableEq

/-- The errors `get_ai_client` can raise, one constructor per distinct
`RenderCVUserError` site. -/
inductive ClientError where
  | credentialWithoutProvider
  | noApiKeyFound
  | apiKeyNotFoundFor (envVar : String)
  | unknownProvider (p : String)
deriving Repr, DecidableEq

/-- The constructed client: which backend class was instantiated, with its
configuration. -/
inductive AIClientInstance where
  | openaiClient (config : AIConfig)
  | anthropicClient (config : AIConfig)
deriving Repr, DecidableEq

/-- `get_ai_client(provider, api_key, model)` from `client.py`, with the
environment passed explicitly.  Mirrors the source line by line:
auto-detection when `provider is None` (error if a truthy `api_key` was
given; otherwise probe `OPENAI_API_KEY` then `ANTHROPIC_API_KEY`), then
provider-specific environment lookup when `api_key is None`, then dispatch
on the provider name. -/
def get_ai_client (provider api_key model : Option String) (env : Env) :
    Except ClientError AIClientInstance :=
  let detected : Except ClientError (String × Option String) :=
    match provider with
    | some p => .ok (p, api_key)
    | none =>
      if strOptTruthy api_key then .error .credentialWithoutProvider
      else
        match envTruthy env "OPENAI_API_KEY" with
        | some v => .ok ("openai", some v)
        | none =>
          match envTruthy env "ANTHROPIC_API_KEY" with
          | some v => .ok ("anthropic", some v)
          | none => .error .noApiKeyFound
  match detected with
  | .error e => .error e
  | .ok (p, key) =>
    let resolvedKey : Except ClientError String :=
      match key with
      | some k => .ok k
      | none =>
        let envVar := pyUpper p ++ "_API_KEY"
        match envTruthy env envVar with
        | some v => .ok v
        | none => .error (.apiKeyNotFoundFor envVar)
    match resolvedKey with
    | .error e => .error e
    | .ok k =>
      let config : AIConfig := ⟨p, k, model⟩
      if p = "openai" then .ok (.openaiClient config)
      else if p = "anthropic" then .ok (.anthropicClient config)
      else .error (.unknownProvider p)

/- ### Text extraction dispatch (`src/rendercv/ai/parser.py`,
`extract_resume_text`) -/

/-- Outcome of `extract_resume_text`'s dispatch.  The three per-format
extractors delegate to external libraries (pypdf, python-docx, file
reads), so the model records which extractor was dispatched to; the error
constructors carry the exact message built by the source. -/
inductive ExtractDispatch where
  | pdf
  | docx
  | txt
  | errNotFound
  | errUnsupported (message : String)
deriving Repr, DecidableEq

/-- `extract_resume_text(file_path)` from `parser.py`.  The path is
modelled by whether it exists and its `pathlib` suffix (the extension
including the leading dot, original case). -/
def extract_resume_text (fileExists : Bool) (suffix : String) :
    ExtractDispatch :=
  if !fileExists then .errNotFound
  else
    let s := pyLower suffix
    if s = ".pdf" then .pdf
    else if s = ".docx" then .docx
    else if s = ".txt" || s = ".md" || s = ".rst" then .txt
    else .errUnsupported
      ("Unsupported file format: " ++ s ++
        ". Supported formats: PDF, DOCX, TXT, MD")

/-- Contiguous-sublist test on character lists. -/
def subListOf (needle : List Char) : List Char → Bool
  | [] => needle.isEmpty
  | c :: t => needle.isPrefixOf (c :: t) || subListOf needle t

/-- Substring test (Python `needle in hay` for strings). -/
def strContainsSub (needle hay : String) : Bool :=
  subListOf needle.data hay.data

/-- C1: credential resolution precedence of `get_ai_client`: explicit
provider and key are used as-is (for either supported provider, the
environment is ignored); a key without a provider is the
credential-without-provider error; with neither, `OPENAI_API_KEY` is
probed before `ANTHROPIC_API_KEY` and the first one found fixes the
provider; with neither environment source set, the "no API key found"
error is raised. -/
theorem get_ai_client_credential_resolution :
    (∀ (k : String) (m : Option String) (env : Env),
      get_ai_client (some "openai") (some k) m env =
        .ok (.openaiClient ⟨"openai", k, m⟩) ∧
      get_ai_client (some "anthropic") (some k) m env =
        .ok (.anthropicClient ⟨"anthropic", k, m⟩)) ∧
    (∀ (k : String) (m : Option String) (env : Env), k ≠ "" →
      get_ai_client none (some k) m env =
        .error .credentialWithoutProvider) ∧
    (∀ (m : Option String) (env : Env) (v : String),
      envGet env "OPENAI_API_KEY" = some v → v ≠ "" →
      get_ai_client none none m env =
        .ok (.openaiClient ⟨"openai", v, m⟩)) ∧
    (∀ (m : Option String) (env : Env) (v : String),
      envGet env "OPENAI_API_KEY" = none →
      envGet env "ANTHROPIC_API_KEY" = some v → v ≠ "" →
      get_ai_client none none m env =
        .ok (.anthropicClient ⟨"anthropic", v, m⟩)) ∧
    (∀ (m : Option String) (env : Env),
      envGet env "OPENAI_API_KEY" = none →
      envGet env "ANTHROPIC_API_KEY" = none →
      get_ai_client none none m env = .error .noApiKeyFound) := by
  refine ⟨?_, ?_, ?_, ?_, ?_⟩
  · intro k m env
    constructor <;> rfl
  · intro k m env hk
    simp [get_ai_client, strOptTruthy, hk]
  · intro m env v h hv
    simp [get_ai_client, envTruthy, strOptTruthy, h, hv]
  · intro m env v h1 h2 hv
    simp [get_ai_client, envTruthy, strOptTruthy, h1, h2, hv]
  · intro m env h1 h2
    simp [get_ai_client, envTruthy, strOptTruthy, h1, h2]

/-- Witness for C1: with only `ANTHROPIC_API_KEY` set and no explicit
arguments, the factory returns the Anthropic client with the environment
key. -/
theorem get_ai_client_credential_resolution_witness :
    get_ai_client none none none [("ANTHROPIC_API_KEY", "sk-ant")] =
      .ok (.anthropicClient ⟨"anthropic", "sk-ant", none⟩) :=
  get_ai_client_credential_resolution.2.2.2.1 none
    [("ANTHROPIC_API_KEY", "sk-ant")] "sk-ant" rfl rfl (by decide)

/-- C7 counterexample: for an existing file with extension `.xyz`,
`extract_resume_text` raises the unsupported-format error, but its message
names only PDF, DOCX, TXT and MD — it does not name `.rst` (in any
casing), although `.rst` files are in fact handled.  The claim that the
error names the allowed set `.pdf, .docx, .txt, .md, .rst` is therefore
false. -/
theorem extract_resume_text_unsupported_message_omits_rst :
    extract_resume_text true ".xyz" =
      .errUnsupported
        "Unsupported file format: .xyz. Supported formats: PDF, DOCX, TXT, MD" ∧
    strContainsSub "rst" "Unsupported file format: .xyz. Supported formats: PDF, DOCX, TXT, MD" = false ∧
    strContainsSub "RST" "Unsupported file format: .xyz. Supported formats: PDF, DOCX, TXT, MD" = false ∧
    strContainsSub "PDF" "Unsupported file format: .xyz. Supported formats: PDF, DOCX, TXT, MD" = true ∧
    strContainsSub "DOCX" "Unsupported file format: .xyz. Supported formats: PDF, DOCX, TXT, MD" = true ∧
    strContainsSub "TXT" "Unsupported file format: .xyz. Supported formats: PDF, DOCX, TXT, MD" = true ∧
    strContainsSub "MD" "Unsupported file format: .xyz. Supported formats: PDF, DOCX, TXT, MD" = true := by
  refine ⟨rfl, by decide, by decide, by decide, by decide, by decide, by decide⟩

/-- C7 (amended): `extract_resume_text` checks existence before any
extension dispatch, then dispatches strictly on the lowercased extension
(`.pdf`, `.docx`, `.txt`/`.md`/`.rst`); any other extension raises the
unsupported-format error whose message names the formats PDF, DOCX, TXT
and MD (not RST, although `.rst` is handled). -/
theorem extract_resume_text_dispatch (fileExists : Bool) (suffix : String) :
    (fileExists = false →
      extract_resume_text fileExists suffix = .errNotFound) ∧
    (fileExists = true →
      (pyLower suffix = ".pdf" →
        extract_resume_text fileExists suffix = .pdf) ∧
      (pyLower suffix = ".docx" →
        extract_resume_text fileExists suffix = .docx) ∧
      (pyLower suffix = ".txt" ∨ pyLower suffix = ".md" ∨
          pyLower suffix = ".rst" →
        extract_resume_text fileExists suffix = .txt) ∧
      (pyLower suffix ≠ ".pdf" → pyLower suffix ≠ ".docx" →
        pyLower suffix ≠ ".txt" → pyLower suffix ≠ ".md" →
        pyLower suffix ≠ ".rst" →
        extract_resume_text fileExists suffix =
          .errUnsupported
            ("Unsupported file format: " ++ pyLower suffix ++
              ". Supported formats: PDF, DOCX, TXT, MD"))) := by
  constructor
  · intro h
    simp [extract_resume_text, h]
  · intro h
    refine ⟨?_, ?_, ?_, ?_⟩
    · intro hs
      simp [extract_resume_text, h, hs]
    · intro hs
      simp [extract_resume_text, h, hs]
    · intro hs
      rcases hs with hs | hs | hs <;> simp [extract_resume_text, h, hs]
    · intro h1 h2 h3 h4 h5
      simp [extract_resume_text, h, h1, h2, h3, h4, h5]

/-- Witness for C7 (amended): an existing `.PDF` file dispatches to the
PDF extractor; a missing file is a not-found error. -/
theorem extract_resume_text_dispatch_witness :
    extract_resume_text true ".PDF" = .pdf ∧
    extract_resume_text false ".pdf" = .errNotFound :=
  ⟨((extract_resume_text_dispatch true ".PDF").2 rfl).1 (by decide),
   (extract_resume_text_dispatch false ".pdf").1 rfl⟩

/- ### `json.loads` model: an executable recursive-descent JSON parser -/

/-- JSON insignificant whitespace. -/
def isJsonWs (c : Char) : Bool :=
  c = ' ' || c = '\t' || c = '\n' || c = '\r'

/-- Decode one character escape inside a JSON string (`\uXXXX` escapes are
not modelled; none occur in the inputs under study). -/
def escChar (e : Char) : Option Char :=
  if e = 'n' then some '\n'
  else if e = 't' then some '\t'
  else if e = 'r' then some '\r'
  else if e = 'b' then some '\x08'
  else if e = 'f' then some '\x0c'
  else if e = '"' then some '"'
  else if e = '\\' then some '\\'
  else if e = '/' then some '/'
  else none

/-- Parse the body of a JSON string after the opening quote, returning the
decoded string and the rest of the input. -/
def parseStringAux (acc : List Char) : List Char → Option (String × List Char)
  | [] => none
  | '\\' :: rest =>
    match rest with
    | [] => none
    | e :: rest' =>
      match escChar e with
      | some c => parseStringAux (acc ++ [c]) rest'
      | none => none
  | '"' :: rest => some (String.mk acc, rest)
  | c :: rest => parseStringAux (acc ++ [c]) rest

/-- Parse a JSON integer (floats and exponents are not modelled). -/
def parseNumber (l : List Char) : Option (Int × List Char) :=
  let (neg, l') :=
    match l with
    | '-' :: t => (true, t)
    | _ => (false, l)
  let ds := l'.takeWhile Char.isDigit
  let rest := l'.dropWhile Char.isDigit
  if ds.isEmpty then none
  else
    let n : Nat := ds.foldl (fun a c => a * 10 + (c.toNat - '0'.toNat)) 0
    some (if neg then -(n : Int) else (n : Int), rest)

mutual

/-- Parse one JSON value, returning it and the unconsumed input.  The
dispatch is on the first significant character: brace and bracket open a
composite, a quote opens a string, the keyword letters open the three
literals, sign or digit opens a number. -/
def parseValue : Nat → List Char → Option (Json × List Char)
  | 0, _ => none
  | fuel + 1, input =>
    match input.dropWhile isJsonWs with
    | [] => none
    | c :: t =>
      if c = '\x7b' then
        match t.dropWhile isJsonWs with
        | '\x7d' :: r => some (.obj [], r)
        | _ => parseObjItems fuel t []
      else if c = '[' then
        match t.dropWhile isJsonWs with
        | ']' :: r => some (.arr [], r)
        | _ => parseArrayItems fuel t []
      else if c = '"' then
        match parseStringAux [] t with
        | some (s, r) => some (.str s, r)
        | none => none
      else if c = 'n' then
        if ['u', 'l', 'l'].isPrefixOf t then some (.null, t.drop 3) else none
      else if c = 't' then
        if ['r', 'u', 'e'].isPrefixOf t then some (.bool true, t.drop 3)
        else none
      else if c = 'f' then
        if ['a', 'l', 's', 'e'].isPrefixOf t then some (.bool false, t.drop 4)
        else none
      else if c = '-' || c.isDigit then
        match parseNumber (c :: t) with
        | some (n, r) => some (.num n, r)
        | none => none
      else none

/-- Parse the comma-separated items of a JSON array after `[`. -/
def parseArrayItems : Nat → List Char → List Json → Option (Json × List Char)
  | 0, _, _ => none
  | fuel + 1, l, acc =>
    match parseValue fuel l with
    | none => none
    | some (v, rest) =>
      match rest.dropWhile isJsonWs with
      | ',' :: r => parseArrayItems fuel r (acc ++ [v])
      | ']' :: r => some (.arr (acc ++ [v]), r)
      | _ => none

/-- Parse the comma-separated members of a JSON object after the opening brace. -/
def parseObjItems :
    Nat → List Char → List (String × Json) → Option (Json × List Char)
  | 0, _, _ => none
  | fuel + 1, l, acc =>
    match l.dropWhile isJsonWs with
    | '"' :: rest =>
      match parseStringAux [] rest with
      | none => none
      | some (k, r1) =>
        match r1.dropWhile isJsonWs with
        | ':' :: r2 =>
          match parseValue fuel r2 with
          | none => none
          | some (v, r3) =>
            match r3.dropWhile isJsonWs with
            | ',' :: r4 => parseObjItems fuel r4 (acc ++ [(k, v)])
            | '\x7d' :: r4 => some (.obj (acc ++ [(k, v)]), r4)
            | _ => none
        | _ => none
    | _ => none

end

/-- `json.loads` on a character list: parse one value and require only
whitespace after it. -/
def jsonParse (l : List Char) : Option Json :=
  match parseValue (l.length + 1) l with
  | some (v, rest) =>
    if (rest.dropWhile isJsonWs).isEmpty then some v else none
  | none => none

/-- `json.loads(s)`: `some` the parsed value, `none` when the JSON is
malformed (a raised `json.JSONDecodeError`). -/
def jsonLoads (s : String) : Option Json :=
  jsonParse s.data

/- ### Provider clients (`src/rendercv/ai/client.py`) -/

/-- A runtime (non-`RenderCVUserError`) exception escaping a client call. -/
inductive RuntimeError where
  | indexError
  | jsonDecodeError
deriving Repr, DecidableEq

/-- `OpenAIClient.generate`: the backend reply is
`response.choices[0].message.content`, an `str | None`; the source
returns `content or ""`. -/
def openaiGenerate (content : Option String) : String :=
  match content with
  | some s => s
  | none => ""

/-- `AnthropicClient.generate`: the backend reply's content blocks are
modelled by their texts; the source returns `response.content[0].text`
with no guard, so an empty block list is an uncaught `IndexError`. -/
def anthropicGenerate (contentBlocks : List String) :
    Except RuntimeError String :=
  match contentBlocks with
  | [] => .error .indexError
  | t :: _ => .ok t

/-- `OpenAIClient.generate_json`: `content or "\x7b\x7d"` (the empty-object text) then `json.loads`;
`none` models a raised `json.JSONDecodeError`. -/
def openaiGenerateJson (content : Option String) : Option Json :=
  jsonLoads
    (match content with
     | some s => if s = "" then "\x7b\x7d" else s
     | none => "\x7b\x7d")

/-- The code-fence stripping of `AnthropicClient.generate_json`
(lines 204-211 of `client.py`) on a character list: strip, drop a leading
"```json" or "```", drop a trailing "```", strip again. -/
def stripFencesChars (l : List Char) : List Char :=
  let c1 := stripChars l
  let c2 :=
    if ("```json".data).isPrefixOf c1 then c1.drop 7
    else if ("```".data).isPrefixOf c1 then c1.drop 3
    else c1
  let c3 :=
    if ("```".data).isSuffixOf c2 then c2.take (c2.length - 3) else c2
  stripChars c3

/-- `AnthropicClient.generate_json` applied to the reply text
`response.content[0].text`: strip optional code fences, then
`json.loads`. -/
def anthropicGenerateJson (replyText : String) : Option Json :=
  jsonParse (stripFencesChars replyText.data)

/- ### Resume service (`src/rendercv/ai/service.py`) -/

/-- The `RenderCVUserError` sites of the service operations. -/
inductive ServiceError where
  | couldNotExtractText
  | emptyJobDescription
  | emptyUserInfo
  | invalidStructure
deriving Repr, DecidableEq

/-- `AIResumeService.parse_resume`, with text extraction and the provider
call made explicit: `resume_text` is the text extracted from the file and
`reply` the parsed object `generate_json` would return.  The second
component counts how many `generate_json` calls were made. -/
def parse_resume (resume_text : String) (reply : Doc) :
    Except ServiceError Doc × Nat :=
  if pyIsBlank resume_text then (.error .couldNotExtractText, 0)
  else if reply.hasKey "cv" then (.ok reply, 1)
  else (.error .invalidStructure, 1)

/-- Result of a Python `x in v` membership test on a JSON-decoded value:
the member was found, it was absent, or `v` is not a container and the
test raises `TypeError`. -/
inductive PyIn where
  | found
  | absent
  | typeError
deriving Repr, DecidableEq

/-- Python `needle in v` for a JSON-decoded value `v`: key membership for
a mapping, substring test for a string, element membership (equality with
the string `needle`) for a list; a number, boolean or `None` is not a
container, so the test raises `TypeError`. -/
def pyContains (needle : String) : Json → PyIn
  | .obj fields => if Doc.hasKey fields needle then .found else .absent
  | .str s => if strContainsSub needle s then .found else .absent
  | .arr elems =>
    if elems.any (fun e =>
        match e with
        | .str t => t = needle
        | _ => false)
    then .found else .absent
  | _ => .typeError

/-- Outcome of the tailor operation past its precondition: a returned
value (which Python does not force to be a mapping — unwrapping a
non-mapping `resume` value returns it as-is), the upstream-shape
`RenderCVUserError`, a blank-input `RenderCVUserError`, or an uncaught
`TypeError` escaping the membership test. -/
inductive TailorOutcome where
  | ok (d : Json)
  | userError (e : ServiceError)
  | typeError

/-- The reply-shape handling of `AIResumeService.tailor_resume`
(lines 144-154 of `service.py`): return a reply holding `cv` at top
level; otherwise, when a `resume` key is present, run Python's
`"cv" in result["resume"]` — with its untyped membership semantics,
modelled by `pyContains` — and on success return `result["resume"]`
unchanged (even when it is not a mapping), on failure raise the
upstream-shape error, and let a `TypeError` from a non-container value
propagate; with no `resume` key, raise the upstream-shape error. -/
def tailorExtract (reply : Doc) : TailorOutcome :=
  if reply.hasKey "cv" then .ok (.obj reply)
  else
    match reply.getKey "resume" with
    | none => .userError .invalidStructure
    | some v =>
      match pyContains "cv" v with
      | .found => .ok v
      | .absent => .userError .invalidStructure
      | .typeError => .typeError

/-- `AIResumeService.tailor_resume`: blank job description is a
precondition error before the provider call; otherwise the reply is
shape-checked by `tailorExtract`.  The second component counts
`generate_json` calls. -/
def tailor_resume (_resume_data : Doc) (job_description : String)
    (reply : Doc) : TailorOutcome × Nat :=
  if pyIsBlank job_description then (.userError .emptyJobDescription, 0)
  else (tailorExtract reply, 1)

/-- `AIResumeService.generate_resume`: blank user info is a precondition
error before the provider call; the reply must hold `cv`. -/
def generate_resume (user_info : String) (reply : Doc) :
    Except ServiceError Doc × Nat :=
  if pyIsBlank user_info then (.error .emptyUserInfo, 0)
  else if reply.hasKey "cv" then (.ok reply, 1)
  else (.error .invalidStructure, 1)

/- ### Resume file I/O (`src/rendercv/ai/service.py`,
`save_resume_yaml` / `load_resume_yaml`) -/

/-- The default-injection step of `save_resume_yaml`: add
a `design` block holding the given theme and a `locale` block holding the
given locale when absent.
The source mutates the caller's dictionary, so this is both the dumped
document and the caller's dictionary after the call. -/
def withDefaults (resume_data : Doc) (theme locale : String) : Doc :=
  let d1 :=
    if resume_data.hasKey "design" then resume_data
    else resume_data.setKey "design" (.obj [("theme", .str theme)])
  if d1.hasKey "locale" then d1
  else d1.setKey "locale" (.obj [("language", .str locale)])

/-- The observable outcome of `save_resume_yaml`: the caller's dictionary
after the call (the same object that was passed in, mutated in place) and
the value serialized to the file.  The YAML serialization itself is
ruamel.yaml, an external library the spec treats as opaque; its
round-tripping of mappings is modelled by storing the structured value. -/
structure SaveResult where
  callerDoc : Doc
  fileContents : Json

/-- `save_resume_yaml(resume_data, output_path, theme, locale)`. -/
def save_resume_yaml (resume_data : Doc) (theme locale : String) :
    SaveResult :=
  let d := withDefaults resume_data theme locale
  ⟨d, .obj d⟩

/-- The `RenderCVUserError` sites of `load_resume_yaml`. -/
inductive LoadError where
  | fileNotFound
  | invalidYamlStructure
deriving Repr, DecidableEq

/-- `load_resume_yaml(file_path)`: the file is `none` when the path does
not exist, otherwise the structured value the YAML text parses to.  A
missing file errors; a root that is not a mapping errors; a mapping root
is returned as a dict. -/
def load_resume_yaml (file : Option Json) : Except LoadError Doc :=
  match file with
  | none => .error .fileNotFound
  | some (Json.obj fields) => .ok fields
  | some _ => .error .invalidYamlStructure

/- ### Carry-over in `ai_polish` / `ai_tailor`
(`src/rendercv/cli/ai_command/ai_command.py`) -/

/-- One step of the carry-over: copy `old[k]` into `new` when `k` is in
the old document and not in the new one. -/
def carryOverKey (old new : Doc) (k : String) : Doc :=
  if old.hasKey k && !(new.hasKey k) then
    match old.getKey k with
    | some v => new.setKey k v
    | none => new
  else new

/-- The carry-over sequence both `ai_polish` and `ai_tailor` run before
saving: preserve `design`, `locale` and `settings` from the original
document when the AI-produced one lacks them. -/
def carryOver (old new : Doc) : Doc :=
  carryOverKey old (carryOverKey old (carryOverKey old new "design") "locale")
    "settings"

/- ### Claim C2: tailor reply shapes -/

/-- C2 counterexample: the claim says every reply lacking `cv` and
lacking a `resume` mapping that holds `cv` raises the upstream-shape
error.  But `service.py` line 147 runs the untyped Python membership
test `"cv" in result["resume"]`: a reply whose `resume` value is the
number `5` raises an uncaught `TypeError` (not the upstream-shape
`RenderCVUserError`), and a reply whose `resume` value is the string
`"my cv"` passes the substring test and is returned as-is (no error at
all). -/
theorem tailor_extract_nonmapping_resume_counterexample :
    tailorExtract [("resume", .num 5)] = .typeError ∧
    tailorExtract [("resume", .num 5)] ≠ .userError .invalidStructure ∧
    tailorExtract [("resume", .str "my cv")] = .ok (.str "my cv") ∧
    tailorExtract [("resume", .str "my cv")] ≠
      .userError .invalidStructure := by
  refine ⟨rfl, ?_, rfl, ?_⟩
  · intro h
    cases h
  · intro h
    cases h

/-- C2 (amended): the tailor operation returns the reply itself when it
holds `cv` at top level; when it lacks `cv` and lacks `resume`, it raises
the upstream-shape error; when it lacks `cv` but has a `resume` value,
the Python membership test `"cv" in result["resume"]` decides: found
(mapping key, string substring or list element) returns the `resume`
value unwrapped one level — even when it is not a mapping —, absent
raises the upstream-shape error, and a non-container value raises an
uncaught `TypeError` instead; in particular a `resume` mapping holding
`cv` is unwrapped, and a bare `cv` reply and a `resume`-wrapped reply
with the same `cv` value extract to the same document. -/
theorem tailor_resume_reply_shape (r : Doc) :
    (∀ (d : Doc) (jd : String) (reply : Doc), pyIsBlank jd = false →
      tailor_resume d jd reply = (tailorExtract reply, 1)) ∧
    (r.hasKey "cv" = true → tailorExtract r = .ok (.obj r)) ∧
    (r.hasKey "cv" = false → r.hasKey "resume" = false →
      tailorExtract r = .userError .invalidStructure) ∧
    (r.hasKey "cv" = false → ∀ v, r.getKey "resume" = some v →
      (pyContains "cv" v = .found → tailorExtract r = .ok v) ∧
      (pyContains "cv" v = .absent →
        tailorExtract r = .userError .invalidStructure) ∧
      (pyContains "cv" v = .typeError → tailorExtract r = .typeError)) ∧
    (r.hasKey "cv" = false → ∀ w, r.getKey "resume" = some (.obj w) →
      Doc.hasKey w "cv" = true → tailorExtract r = .ok (.obj w)) ∧
    (∀ v, tailorExtract [("cv", v)] = .ok (.obj [("cv", v)]) ∧
      tailorExtract [("resume", .obj [("cv", v)])] =
        .ok (.obj [("cv", v)])) := by
  refine ⟨?_, ?_, ?_, ?_, ?_, ?_⟩
  · intro d jd reply h
    simp [tailor_resume, h]
  · intro h
    simp [tailorExtract, h]
  · intro h hres
    simp [tailorExtract, h, Doc.getKey_eq_none_of_not_hasKey r "resume" hres]
  · intro h v hv
    refine ⟨?_, ?_, ?_⟩ <;> intro hm <;>
      simp [tailorExtract, h, hv, hm]
  · intro h w hw hcv
    simp [tailorExtract, h, hw, pyContains, hcv]
  · intro v
    constructor
    · simp [tailorExtract, Doc.hasKey]
    · simp [tailorExtract, Doc.hasKey, Doc.getKey, pyContains]

/-- Witness for C2: concrete bare and wrapped replies with the same `cv`
value extract to the same document, and the provider call is made once on
a non-blank job description. -/
theorem tailor_resume_reply_shape_witness :
    tailorExtract [("cv", .str "x")] = .ok (.obj [("cv", .str "x")]) ∧
    tailorExtract [("resume", .obj [("cv", .str "x")])] =
      .ok (.obj [("cv", .str "x")]) ∧
    tailor_resume [] "engineer role" [("cv", .str "x")] =
      (.ok (.obj [("cv", .str "x")]), 1) := by
  refine ⟨((tailor_resume_reply_shape []).2.2.2.2.2 (.str "x")).1,
    ((tailor_resume_reply_shape []).2.2.2.2.2 (.str "x")).2, ?_⟩
  have h := (tailor_resume_reply_shape []).1 [] "engineer role"
    [("cv", .str "x")] (by rfl)
  rw [h]
  have h2 := ((tailor_resume_reply_shape [("cv", Json.str "x")]).2.1) (by rfl)
  rw [h2]

/- ### Claim C3: blank-input preconditions -/

/-- C3: a blank (empty or whitespace-only) relevant input makes each
service operation raise its specific precondition error with zero
provider calls: blank extracted text for `parse_resume`, blank job
description for `tailor_resume`, blank user info for `generate_resume`. -/
theorem blank_input_preconditions :
    (∀ (text : String) (reply : Doc), pyIsBlank text = true →
      parse_resume text reply = (.error .couldNotExtractText, 0)) ∧
    (∀ (d : Doc) (jd : String) (reply : Doc), pyIsBlank jd = true →
      tailor_resume d jd reply = (.userError .emptyJobDescription, 0)) ∧
    (∀ (info : String) (reply : Doc), pyIsBlank info = true →
      generate_resume info reply = (.error .emptyUserInfo, 0)) := by
  refine ⟨?_, ?_, ?_⟩
  · intro text reply h
    simp [parse_resume, h]
  · intro d jd reply h
    simp [tailor_resume, h]
  · intro info reply h
    simp [generate_resume, h]

/-- Witness for C3: whitespace-only inputs hit each precondition error
with zero provider calls. -/
theorem blank_input_preconditions_witness :
    parse_resume " \t\n" [("cv", .null)] = (.error .couldNotExtractText, 0) ∧
    tailor_resume [] "  " [("cv", .null)] =
      (.userError .emptyJobDescription, 0) ∧
    generate_resume "" [("cv", .null)] = (.error .emptyUserInfo, 0) :=
  ⟨blank_input_preconditions.1 " \t\n" [("cv", .null)] (by rfl),
   blank_input_preconditions.2.1 [] "  " [("cv", .null)] (by rfl),
   blank_input_preconditions.2.2 "" [("cv", .null)] (by rfl)⟩

/- ### Claim C8: behaviour on a reply with no content -/

/-- C8 counterexample: the messages-style (Anthropic) `generate` indexes
the first content block with no guard, so a reply with no content blocks
raises an `IndexError` instead of returning the empty string — the claim
that both variants return the empty string is false. -/
theorem anthropic_generate_empty_content_raises :
    anthropicGenerate [] = .error .indexError ∧
    anthropicGenerate [] ≠ .ok "" := by
  constructor
  · rfl
  · intro h
    cases h

/-- C8 (amended): the chat-completion-style (OpenAI) `generate` returns
the empty string when the backend reply carries no content; the
messages-style (Anthropic) `generate` returns the first content block's
text and raises an `IndexError` when the reply has no content blocks. -/
theorem generate_empty_content_behaviour :
    openaiGenerate none = "" ∧
    openaiGenerate (some "hello") = "hello" ∧
    (∀ (t : String) (rest : List String),
      anthropicGenerate (t :: rest) = .ok t) ∧
    anthropicGenerate [] = .error .indexError := by
  refine ⟨rfl, rfl, ?_, rfl⟩
  intro t rest
  rfl

/- ### Claim C10: OpenAI `generate_json` on a no-content reply -/

/-- C10: when the chat-completion-style backend reply carries no content,
`generate_json` substitutes the literal `"\x7b\x7d"` and parses it to the
empty object instead of raising a JSON parse error; the service's
missing-`cv` check then reports the failure (here for `parse_resume`). -/
theorem openai_generate_json_empty_content :
    openaiGenerateJson none = some (.obj []) ∧
    openaiGenerateJson (some "") = some (.obj []) ∧
    (∀ (text : String), pyIsBlank text = false →
      parse_resume text [] = (.error .invalidStructure, 1)) := by
  refine ⟨rfl, rfl, ?_⟩
  intro text h
  simp [parse_resume, h, Doc.hasKey]

/-- Witness for C10: a non-blank extracted text together with the empty
object reply hits the invalid-structure error after one provider call. -/
theorem openai_generate_json_empty_content_witness :
    parse_resume "John Doe, engineer" [] = (.error .invalidStructure, 1) :=
  openai_generate_json_empty_content.2.2 "John Doe, engineer" (by rfl)

/- ### Claims C5 and C9: save/load round trip and in-place mutation -/

theorem withDefaults_getKey_design (d : Doc) (theme locale : String) :
    (withDefaults d theme locale).getKey "design" =
      if d.hasKey "design" then d.getKey "design"
      else some (.obj [("theme", .str theme)]) := by
  unfold withDefaults
  by_cases hd : d.hasKey "design"
  · simp only [hd, if_true]
    by_cases hl : d.hasKey "locale"
    · simp [hl]
    · simp [hl, Doc.getKey_setKey_other d "locale" "design" _ (by decide)]
  · simp only [hd, Bool.false_eq_true, if_false]
    have hset := Doc.getKey_setKey_same d "design" (.obj [("theme", .str theme)])
    by_cases hl : (d.setKey "design" (Json.obj [("theme", .str theme)])).hasKey "locale"
    · simp [hl, hset]
    · simp [hl, hset,
        Doc.getKey_setKey_other _ "locale" "design" _ (by decide)]

theorem withDefaults_getKey_locale (d : Doc) (theme locale : String) :
    (withDefaults d theme locale).getKey "locale" =
      if d.hasKey "locale" then d.getKey "locale"
      else some (.obj [("language", .str locale)]) := by
  unfold withDefaults
  by_cases hd : d.hasKey "design"
  · simp only [hd, if_true]
    by_cases hl : d.hasKey "locale"
    · simp [hl]
    · simp [hl, Doc.getKey_setKey_same]
  · simp only [hd, Bool.false_eq_true, if_false]
    have hkeep : (d.setKey "design" (Json.obj [("theme", .str theme)])).hasKey "locale"
        = d.hasKey "locale" := by
      rw [Doc.hasKey_setKey]
      simp
    by_cases hl : d.hasKey "locale"
    · simp [hkeep, hl,
        Doc.getKey_setKey_other d "design" "locale" _ (by decide)]
    · simp [hkeep, hl, Doc.getKey_setKey_same]

theorem withDefaults_getKey_other (d : Doc) (theme locale k : String)
    (h1 : k ≠ "design") (h2 : k ≠ "locale") :
    (withDefaults d theme locale).getKey k = d.getKey k := by
  unfold withDefaults
  by_cases hd : d.hasKey "design" <;>
    by_cases hl : (if d.hasKey "design" then d
        else d.setKey "design" (Json.obj [("theme", .str theme)])).hasKey "locale" <;>
    simp only [hd, hl, Bool.false_eq_true, if_true, if_false] at * <;>
    simp [hl, Doc.getKey_setKey_other _ _ _ _ h1,
      Doc.getKey_setKey_other _ _ _ _ h2]

/-- C5: saving a document and loading it back yields exactly the
documents-with-defaults: the `cv` subtree is structurally unchanged, the
`design` block of the result is the injected `theme` default exactly when
the input lacked `design` (and the input's own block otherwise), and
likewise for `locale` and the `language` default. -/
theorem save_load_round_trip (d : Doc) (theme locale : String) :
    load_resume_yaml (some (save_resume_yaml d theme locale).fileContents) =
      .ok (withDefaults d theme locale) ∧
    (withDefaults d theme locale).getKey "cv" = d.getKey "cv" ∧
    (d.hasKey "design" = false →
      (withDefaults d theme locale).getKey "design" =
        some (.obj [("theme", .str theme)])) ∧
    (d.hasKey "design" = true →
      (withDefaults d theme locale).getKey "design" = d.getKey "design") ∧
    (d.hasKey "locale" = false →
      (withDefaults d theme locale).getKey "locale" =
        some (.obj [("language", .str locale)])) ∧
    (d.hasKey "locale" = true →
      (withDefaults d theme locale).getKey "locale" = d.getKey "locale") := by
  refine ⟨rfl, ?_, ?_, ?_, ?_, ?_⟩
  · exact withDefaults_getKey_other d theme locale "cv" (by decide) (by decide)
  · intro h
    rw [withDefaults_getKey_design]
    simp [h]
  · intro h
    rw [withDefaults_getKey_design]
    simp [h]
  · intro h
    rw [withDefaults_getKey_locale]
    simp [h]
  · intro h
    rw [withDefaults_getKey_locale]
    simp [h]

/-- Witness for C5: a concrete document lacking `design` and holding
`locale` round-trips with the theme default injected and its own locale
kept. -/
theorem save_load_round_trip_witness :
    load_resume_yaml (some (save_resume_yaml
        [("cv", .str "body"), ("locale", .obj [("language", .str "german")])]
        "classic" "english").fileContents) =
      .ok (withDefaults
        [("cv", .str "body"), ("locale", .obj [("language", .str "german")])]
        "classic" "english") ∧
    (withDefaults
        [("cv", .str "body"), ("locale", .obj [("language", .str "german")])]
        "classic" "english").getKey "design" =
      some (.obj [("theme", .str "classic")]) ∧
    (withDefaults
        [("cv", .str "body"), ("locale", .obj [("language", .str "german")])]
        "classic" "english").getKey "locale" =
      some (.obj [("language", .str "german")]) := by
  refine ⟨(save_load_round_trip _ "classic" "english").1, ?_, ?_⟩
  · exact (save_load_round_trip _ "classic" "english").2.2.1 (by rfl)
  · have h := (save_load_round_trip
      [("cv", .str "body"), ("locale", .obj [("language", .str "german")])]
      "classic" "english").2.2.2.2.2 (by rfl)
    rw [h]
    rfl

/-- C9: `save_resume_yaml` mutates the caller's dictionary in place — the
caller's document after the call is exactly the dumped
document-with-defaults, so when the input lacked `design` or `locale`,
the caller's document now contains the injected default blocks. -/
theorem save_resume_yaml_mutates_caller (d : Doc) (theme locale : String) :
    (save_resume_yaml d theme locale).callerDoc = withDefaults d theme locale ∧
    (save_resume_yaml d theme locale).fileContents =
      .obj (save_resume_yaml d theme locale).callerDoc ∧
    (d.hasKey "design" = false →
      (save_resume_yaml d theme locale).callerDoc.getKey "design" =
        some (.obj [("theme", .str theme)])) ∧
    (d.hasKey "locale" = false →
      (save_resume_yaml d theme locale).callerDoc.getKey "locale" =
        some (.obj [("language", .str locale)])) := by
  refine ⟨rfl, rfl, ?_, ?_⟩
  · intro h
    show (withDefaults d theme locale).getKey "design" = _
    rw [withDefaults_getKey_design]
    simp [h]
  · intro h
    show (withDefaults d theme locale).getKey "locale" = _
    rw [withDefaults_getKey_locale]
    simp [h]

/-- Witness for C9: after saving a document lacking both blocks, the
caller's dictionary holds both injected defaults. -/
theorem save_resume_yaml_mutates_caller_witness :
    (save_resume_yaml [("cv", .str "body")] "classic"
        "english").callerDoc.getKey "design" =
      some (.obj [("theme", .str "classic")]) ∧
    (save_resume_yaml [("cv", .str "body")] "classic"
        "english").callerDoc.getKey "locale" =
      some (.obj [("language", .str "english")]) :=
  ⟨(save_resume_yaml_mutates_caller [("cv", .str "body")] "classic"
      "english").2.2.1 (by rfl),
   (save_resume_yaml_mutates_caller [("cv", .str "body")] "classic"
      "english").2.2.2 (by rfl)⟩

/- ### Claim C6: carry-over law -/

theorem carryOverKey_of_present (old new : Doc) (k : String)
    (hn : new.hasKey k = true) : carryOverKey old new k = new := by
  simp [carryOverKey, hn]

theorem carryOverKey_getKey_same (old new : Doc) (k : String)
    (ho : old.hasKey k = true) (hn : new.hasKey k = false) :
    (carryOverKey old new k).getKey k = old.getKey k := by
  have hs := Doc.getKey_isSome_of_hasKey old k ho
  cases hv : old.getKey k with
  | none => rw [hv] at hs; cases hs
  | some v =>
    simp [carryOverKey, ho, hn, hv, Doc.getKey_setKey_same]

theorem carryOverKey_getKey_other (old new : Doc) (k k' : String)
    (hne : k ≠ k') : (carryOverKey old new k').getKey k = new.getKey k := by
  unfold carryOverKey
  by_cases hc : (old.hasKey k' && !(new.hasKey k')) = true
  · simp only [hc, if_true]
    cases hv : old.getKey k' with
    | none => rfl
    | some v => exact Doc.getKey_setKey_other new k' k v hne
  · simp [hc]

theorem carryOverKey_hasKey_other (old new : Doc) (k k' : String)
    (hne : k ≠ k') : (carryOverKey old new k').hasKey k = new.hasKey k := by
  unfold carryOverKey
  by_cases hc : (old.hasKey k' && !(new.hasKey k')) = true
  · simp only [hc, if_true]
    cases hv : old.getKey k' with
    | none => rfl
    | some v =>
      rw [Doc.hasKey_setKey]
      simp [Ne.symm hne]
  · simp [hc]

theorem carryOverKey_hasKey_same (old new : Doc) (k : String)
    (ho : old.hasKey k = true) : (carryOverKey old new k).hasKey k = true := by
  by_cases hn : new.hasKey k = true
  · rw [carryOverKey_of_present old new k hn]
    exact hn
  · have hn' : new.hasKey k = false := by
      cases h : new.hasKey k
      · rfl
      · exact absurd h hn
    have hs := Doc.getKey_isSome_of_hasKey old k ho
    cases hv : old.getKey k with
    | none => rw [hv] at hs; cases hs
    | some v =>
      simp [carryOverKey, ho, hn', hv, Doc.hasKey_setKey]

/-- C6: in the polish and tailor flows, each of `design`, `locale` and
`settings` present in the old document and absent from the AI-produced
one is carried into the new document; a key already present in the new
document is never overwritten; and when the old document has all three
and the new one lacks all three, the saved document is the carried-over
document and holds the old document's values for all three keys. -/
theorem carry_over_law :
    (∀ (o n : Doc) (k : String),
      (k = "design" ∨ k = "locale" ∨ k = "settings") →
      o.hasKey k = true → n.hasKey k = false →
      (carryOver o n).getKey k = o.getKey k) ∧
    (∀ (o n : Doc) (k : String), n.hasKey k = true →
      (carryOver o n).getKey k = n.getKey k) ∧
    (∀ (o n : Doc) (theme locale : String),
      o.hasKey "design" = true → o.hasKey "locale" = true →
      o.hasKey "settings" = true →
      n.hasKey "design" = false → n.hasKey "locale" = false →
      n.hasKey "settings" = false →
      load_resume_yaml
          (some (save_resume_yaml (carryOver o n) theme locale).fileContents) =
        .ok (carryOver o n) ∧
      (carryOver o n).getKey "design" = o.getKey "design" ∧
      (carryOver o n).getKey "locale" = o.getKey "locale" ∧
      (carryOver o n).getKey "settings" = o.getKey "settings") := by
  have hdesign : ∀ (o n : Doc), o.hasKey "design" = true →
      n.hasKey "design" = false →
      (carryOver o n).getKey "design" = o.getKey "design" := by
    intro o n ho hn
    unfold carryOver
    rw [carryOverKey_getKey_other _ _ _ "settings" (by decide),
      carryOverKey_getKey_other _ _ _ "locale" (by decide)]
    exact carryOverKey_getKey_same o n "design" ho hn
  have hlocale : ∀ (o n : Doc), o.hasKey "locale" = true →
      n.hasKey "locale" = false →
      (carryOver o n).getKey "locale" = o.getKey "locale" := by
    intro o n ho hn
    unfold carryOver
    rw [carryOverKey_getKey_other _ _ _ "settings" (by decide)]
    have hstep : (carryOverKey o n "design").hasKey "locale" = false := by
      rw [carryOverKey_hasKey_other _ _ _ "design" (by decide)]
      exact hn
    rw [carryOverKey_getKey_same o _ "locale" ho hstep]
  have hsettings : ∀ (o n : Doc), o.hasKey "settings" = true →
      n.hasKey "settings" = false →
      (carryOver o n).getKey "settings" = o.getKey "settings" := by
    intro o n ho hn
    unfold carryOver
    have hstep :
        (carryOverKey o (carryOverKey o n "design")
          "locale").hasKey "settings" = false := by
      rw [carryOverKey_hasKey_other _ _ _ "locale" (by decide),
        carryOverKey_hasKey_other _ _ _ "design" (by decide)]
      exact hn
    rw [carryOverKey_getKey_same o _ "settings" ho hstep]
  refine ⟨?_, ?_, ?_⟩
  · intro o n k hk ho hn
    rcases hk with rfl | rfl | rfl
    · exact hdesign o n ho hn
    · exact hlocale o n ho hn
    · exact hsettings o n ho hn
  · intro o n k hn
    unfold carryOver
    by_cases h1 : k = "design"
    · subst h1
      rw [carryOverKey_getKey_other _ _ _ "settings" (by decide),
        carryOverKey_getKey_other _ _ _ "locale" (by decide),
        carryOverKey_of_present o n "design" hn]
    · by_cases h2 : k = "locale"
      · subst h2
        have hstep : (carryOverKey o n "design").hasKey "locale" = true := by
          rw [carryOverKey_hasKey_other _ _ _ "design" (by decide)]
          exact hn
        rw [carryOverKey_getKey_other _ _ _ "settings" (by decide),
          carryOverKey_of_present _ _ "locale" hstep,
          carryOverKey_getKey_other _ _ _ "design" (by decide)]
      · by_cases h3 : k = "settings"
        · subst h3
          have hstep :
              (carryOverKey o (carryOverKey o n "design")
                "locale").hasKey "settings" = true := by
            rw [carryOverKey_hasKey_other _ _ _ "locale" (by decide),
              carryOverKey_hasKey_other _ _ _ "design" (by decide)]
            exact hn
          rw [carryOverKey_of_present _ _ "settings" hstep,
            carryOverKey_getKey_other _ _ _ "locale" (by decide),
            carryOverKey_getKey_other _ _ _ "design" (by decide)]
        · rw [carryOverKey_getKey_other _ _ _ "settings" h3,
            carryOverKey_getKey_other _ _ _ "locale" h2,
            carryOverKey_getKey_other _ _ _ "design" h1]
  · intro o n theme locale ho1 ho2 ho3 hn1 hn2 hn3
    have hkd : (carryOver o n).hasKey "design" = true := by
      unfold carryOver
      rw [carryOverKey_hasKey_other _ _ _ "settings" (by decide),
        carryOverKey_hasKey_other _ _ _ "locale" (by decide)]
      exact carryOverKey_hasKey_same o n "design" ho1
    have hkl : (carryOver o n).hasKey "locale" = true := by
      unfold carryOver
      rw [carryOverKey_hasKey_other _ _ _ "settings" (by decide)]
      exact carryOverKey_hasKey_same o _ "locale" ho2
    have hWD : withDefaults (carryOver o n) theme locale = carryOver o n := by
      unfold withDefaults
      rw [hkd]
      simp only [if_true]
      rw [hkl]
      simp only [if_true]
    refine ⟨?_, hdesign o n ho1 hn1, hlocale o n ho2 hn2,
      hsettings o n ho3 hn3⟩
    show load_resume_yaml (some (Json.obj
      (withDefaults (carryOver o n) theme locale))) = _
    rw [hWD]
    rfl

/-- Witness for C6: a concrete old document with all three metadata
blocks and a new document lacking all three: all three values are carried
into the saved document. -/
theorem carry_over_law_witness :
    (carryOver
        [("cv", .str "old"), ("design", .str "D"), ("locale", .str "L"),
          ("settings", .str "S")]
        [("cv", .str "new")]).getKey "design" = some (.str "D") ∧
    (carryOver
        [("cv", .str "old"), ("design", .str "D"), ("locale", .str "L"),
          ("settings", .str "S")]
        [("cv", .str "new")]).getKey "cv" = some (.str "new") := by
  constructor
  · have h := (carry_over_law.2.2
      [("cv", .str "old"), ("design", .str "D"), ("locale", .str "L"),
        ("settings", .str "S")]
      [("cv", .str "new")] "classic" "english"
      (by rfl) (by rfl) (by rfl) (by rfl) (by rfl) (by rfl)).2.1
    rw [h]
    rfl
  · have h := carry_over_law.2.1
      [("cv", .str "old"), ("design", .str "D"), ("locale", .str "L"),
        ("settings", .str "S")]
      [("cv", .str "new")] "cv" (by rfl)
    rw [h]
    rfl

/- ### Claim C4: code-fence transparency of Anthropic `generate_json` -/

theorem stripChars_append_left (w l : List Char)
    (hw : w.all isPySpace = true) :
    stripChars (w ++ l) = stripChars l := by
  unfold stripChars
  rw [List.dropWhile_append_of_pos]
  intro a ha
  exact (List.all_eq_true.mp hw) a ha

theorem rdropWhile_append_all (p : Char → Bool) (m w : List Char)
    (hw : w.all p = true) :
    List.rdropWhile p (m ++ w) = List.rdropWhile p m := by
  induction w using List.reverseRecOn with
  | nil => simp
  | append_singleton ws x ih =>
    rw [← List.append_assoc]
    have hx : p x = true := by
      simp only [List.all_append, List.all_cons, List.all_nil,
        Bool.and_true, Bool.and_eq_true] at hw
      exact hw.2
    rw [List.rdropWhile_concat_pos _ _ x hx]
    apply ih
    simp only [List.all_append, Bool.and_eq_true] at hw
    exact hw.1

theorem stripChars_append_right (l w : List Char)
    (hw : w.all isPySpace = true) :
    stripChars (l ++ w) = stripChars l := by
  unfold stripChars
  rw [List.dropWhile_append]
  by_cases h : (l.dropWhile isPySpace).isEmpty
  · have hl : l.dropWhile isPySpace = [] := by
      cases hd : l.dropWhile isPySpace
      · rfl
      · rw [hd] at h; cases h
    have hwnil : w.dropWhile isPySpace = [] := by
      rw [List.dropWhile_eq_nil_iff]
      intro x hx
      exact (List.all_eq_true.mp hw) x hx
    rw [if_pos h, hl, hwnil]
  · rw [if_neg h]
    exact rdropWhile_append_all isPySpace _ w hw

theorem stripChars_wrap (w₁ w₂ l : List Char)
    (h1 : w₁.all isPySpace = true) (h2 : w₂.all isPySpace = true) :
    stripChars (w₁ ++ l ++ w₂) = stripChars l := by
  rw [stripChars_append_right _ _ h2, stripChars_append_left _ _ h1]

theorem stripChars_idem (l : List Char) :
    stripChars (stripChars l) = stripChars l := by
  unfold stripChars
  have hud : (l.dropWhile isPySpace).dropWhile isPySpace
      = l.dropWhile isPySpace := List.dropWhile_idempotent _ _
  have h1 : (List.rdropWhile isPySpace (l.dropWhile isPySpace)).dropWhile
      isPySpace = List.rdropWhile isPySpace (l.dropWhile isPySpace) := by
    cases hr : List.rdropWhile isPySpace (l.dropWhile isPySpace) with
    | nil => rfl
    | cons c cs =>
      obtain ⟨t, ht⟩ :=
        List.rdropWhile_prefix isPySpace (l.dropWhile isPySpace)
      rw [hr] at ht
      have hpc : isPySpace c = false := by
        cases hcc : isPySpace c
        · rfl
        · exfalso
          have hflat : (c :: cs) ++ t = c :: (cs ++ t) := rfl
          rw [hflat] at ht
          have hud' := hud
          rw [← ht, List.dropWhile_cons, hcc, if_pos rfl] at hud'
          have hle :=
            (List.dropWhile_sublist (l := cs ++ t) isPySpace).length_le
          have hlen := congrArg List.length hud'
          simp only [List.length_cons] at hlen
          omega
      simp [List.dropWhile_cons, hpc]
  rw [h1]
  exact List.rdropWhile_idempotent _ _

/-- The fence stripping of `AnthropicClient.generate_json` only depends on
the stripped reply. -/
theorem stripFencesChars_congr (l l' : List Char)
    (h : stripChars l = stripChars l') :
    stripFencesChars l = stripFencesChars l' := by
  unfold stripFencesChars
  rw [h]

theorem stripChars_cons_concat (c d : Char) (m : List Char)
    (hc : isPySpace c = false) (hd : isPySpace d = false) :
    stripChars (c :: (m ++ [d])) = c :: (m ++ [d]) := by
  unfold stripChars
  rw [List.dropWhile_cons, hc]
  simp only [Bool.false_eq_true, if_false]
  have hsh : c :: (m ++ [d]) = (c :: m) ++ [d] := rfl
  rw [hsh]
  exact List.rdropWhile_concat_neg _ _ d (by simp [hd])

theorem stripFences_json_fence (l : List Char) :
    stripFencesChars ("```json\n".data ++ (l ++ "\n```".data)) =
      stripChars l := by
  show stripFencesChars ('`' :: '`' :: '`' :: 'j' :: 's' :: 'o' :: 'n' ::
    '\n' :: (l ++ ('\n' :: '`' :: '`' :: '`' :: []))) = stripChars l
  have hA : stripChars ('`' :: '`' :: '`' :: 'j' :: 's' :: 'o' :: 'n' :: '\n' ::
      (l ++ ('\n' :: '`' :: '`' :: '`' :: []))) =
      '`' :: '`' :: '`' :: 'j' :: 's' :: 'o' :: 'n' :: '\n' ::
      (l ++ ('\n' :: '`' :: '`' :: '`' :: [])) := by
    have hsh : '`' :: '`' :: '`' :: 'j' :: 's' :: 'o' :: 'n' :: '\n' ::
        (l ++ ('\n' :: '`' :: '`' :: '`' :: [])) =
        '`' :: (('`' :: '`' :: 'j' :: 's' :: 'o' :: 'n' :: '\n' ::
          (l ++ ('\n' :: '`' :: '`' :: []))) ++ ['`']) := by
      simp [List.append_assoc]
    rw [hsh]
    exact stripChars_cons_concat '`' '`' _ (by decide) (by decide)
  unfold stripFencesChars
  rw [hA]
  show stripChars
      (if ("```".data.isSuffixOf ('\n' :: (l ++ ['\n', '`', '`', '`'])) = true)
        then List.take (('\n' :: (l ++ ['\n', '`', '`', '`'])).length - 3)
          ('\n' :: (l ++ ['\n', '`', '`', '`']))
        else ('\n' :: (l ++ ['\n', '`', '`', '`']))) = stripChars l
  have hsuf : ("```".data.isSuffixOf ('\n' :: (l ++ ['\n', '`', '`', '`'])))
      = true := by
    rw [show ('\n' :: (l ++ ['\n', '`', '`', '`'])) =
      ('\n' :: (l ++ ['\n'])) ++ ['`', '`', '`'] from by simp]
    simp only [List.isSuffixOf_iff_suffix]
    exact List.suffix_append _ _
  rw [hsuf, if_pos rfl]
  have htake : List.take (('\n' :: (l ++ ['\n', '`', '`', '`'])).length - 3)
      ('\n' :: (l ++ ['\n', '`', '`', '`'])) = '\n' :: (l ++ ['\n']) := by
    rw [show ('\n' :: (l ++ ['\n', '`', '`', '`'])) =
      ('\n' :: (l ++ ['\n'])) ++ ['`', '`', '`'] from by simp]
    apply List.take_left'
    simp [List.length_append]
  rw [htake]
  rw [show ('\n' :: (l ++ ['\n'])) = ['\n'] ++ l ++ ['\n'] from by simp]
  exact stripChars_wrap _ _ _ (by decide) (by decide)

theorem stripFences_plain_fence (l : List Char) :
    stripFencesChars ("```\n".data ++ (l ++ "\n```".data)) =
      stripChars l := by
  show stripFencesChars ('`' :: '`' :: '`' ::
    '\n' :: (l ++ ('\n' :: '`' :: '`' :: '`' :: []))) = stripChars l
  have hA : stripChars ('`' :: '`' :: '`' :: '\n' ::
      (l ++ ('\n' :: '`' :: '`' :: '`' :: []))) =
      '`' :: '`' :: '`' :: '\n' ::
      (l ++ ('\n' :: '`' :: '`' :: '`' :: [])) := by
    have hsh : '`' :: '`' :: '`' :: '\n' ::
        (l ++ ('\n' :: '`' :: '`' :: '`' :: [])) =
        '`' :: (('`' :: '`' :: '\n' ::
          (l ++ ('\n' :: '`' :: '`' :: []))) ++ ['`']) := by
      simp [List.append_assoc]
    rw [hsh]
    exact stripChars_cons_concat '`' '`' _ (by decide) (by decide)
  unfold stripFencesChars
  rw [hA]
  show stripChars
      (if ("```".data.isSuffixOf ('\n' :: (l ++ ['\n', '`', '`', '`'])) = true)
        then List.take (('\n' :: (l ++ ['\n', '`', '`', '`'])).length - 3)
          ('\n' :: (l ++ ['\n', '`', '`', '`']))
        else ('\n' :: (l ++ ['\n', '`', '`', '`']))) = stripChars l
  have hsuf : ("```".data.isSuffixOf ('\n' :: (l ++ ['\n', '`', '`', '`'])))
      = true := by
    rw [show ('\n' :: (l ++ ['\n', '`', '`', '`'])) =
      ('\n' :: (l ++ ['\n'])) ++ ['`', '`', '`'] from by simp]
    simp only [List.isSuffixOf_iff_suffix]
    exact List.suffix_append _ _
  rw [hsuf, if_pos rfl]
  have htake : List.take (('\n' :: (l ++ ['\n', '`', '`', '`'])).length - 3)
      ('\n' :: (l ++ ['\n', '`', '`', '`'])) = '\n' :: (l ++ ['\n']) := by
    rw [show ('\n' :: (l ++ ['\n', '`', '`', '`'])) =
      ('\n' :: (l ++ ['\n'])) ++ ['`', '`', '`'] from by simp]
    apply List.take_left'
    simp [List.length_append]
  rw [htake]
  rw [show ('\n' :: (l ++ ['\n'])) = ['\n'] ++ l ++ ['\n'] from by simp]
  exact stripChars_wrap _ _ _ (by decide) (by decide)

theorem stripFences_unfenced (l : List Char)
    (h1 : ("```".data).isPrefixOf (stripChars l) = false)
    (h2 : ("```".data).isSuffixOf (stripChars l) = false) :
    stripFencesChars l = stripChars l := by
  have hj : ("```json".data).isPrefixOf (stripChars l) = false := by
    cases hc : ("```json".data).isPrefixOf (stripChars l)
    · rfl
    · exfalso
      have hp := List.isPrefixOf_iff_prefix.mp hc
      have h3 : "```".data <+: "```json".data := ⟨['j', 's', 'o', 'n'], rfl⟩
      have hcomb := List.isPrefixOf_iff_prefix.mpr (h3.trans hp)
      rw [h1] at hcomb
      cases hcomb
  unfold stripFencesChars
  simp only [hj, h1, h2, Bool.false_eq_true, if_false]
  exact stripChars_idem l

/-- C4: the messages-style (Anthropic) `generate_json` parses a reply
whose JSON body is wrapped in a ```` ```json ```` or ```` ``` ```` code
fence (with optional surrounding whitespace) to exactly the same object
as the unwrapped reply.  The body is assumed not to begin or end, after
stripping, with a fence marker of its own — which holds for every JSON
document. -/
theorem anthropic_generate_json_fence_transparent (s w₁ w₂ : String)
    (hw₁ : w₁.data.all isPySpace = true) (hw₂ : w₂.data.all isPySpace = true)
    (hpre : ("```".data).isPrefixOf (stripChars s.data) = false)
    (hsuf : ("```".data).isSuffixOf (stripChars s.data) = false) :
    anthropicGenerateJson (w₁ ++ "```json\n" ++ s ++ "\n```" ++ w₂) =
      anthropicGenerateJson s ∧
    anthropicGenerateJson (w₁ ++ "```\n" ++ s ++ "\n```" ++ w₂) =
      anthropicGenerateJson s := by
  unfold anthropicGenerateJson
  constructor
  · have hdata : (w₁ ++ "```json\n" ++ s ++ "\n```" ++ w₂).data
        = w₁.data ++ ("```json\n".data ++ (s.data ++ "\n```".data))
          ++ w₂.data := by
      simp [List.append_assoc]
    rw [hdata,
      stripFencesChars_congr _ _
        (stripChars_wrap w₁.data w₂.data _ hw₁ hw₂),
      stripFences_json_fence s.data,
      stripFences_unfenced s.data hpre hsuf]
  · have hdata : (w₁ ++ "```\n" ++ s ++ "\n```" ++ w₂).data
        = w₁.data ++ ("```\n".data ++ (s.data ++ "\n```".data))
          ++ w₂.data := by
      simp [List.append_assoc]
    rw [hdata,
      stripFencesChars_congr _ _
        (stripChars_wrap w₁.data w₂.data _ hw₁ hw₂),
      stripFences_plain_fence s.data,
      stripFences_unfenced s.data hpre hsuf]

/-- Witness for C4: a concrete fenced reply parses to the same object as
the bare JSON body. -/
theorem anthropic_generate_json_fence_transparent_witness :
    anthropicGenerateJson
        ("  " ++ "```json\n" ++ "\x7b\"cv\": 1\x7d" ++ "\n```" ++ " ") =
      anthropicGenerateJson "\x7b\"cv\": 1\x7d" ∧
    anthropicGenerateJson "\x7b\"cv\": 1\x7d" = some (.obj [("cv", .num 1)]) := by
  constructor
  · exact (anthropic_generate_json_fence_transparent "\x7b\"cv\": 1\x7d" "  " " "
      (by decide) (by decide) (by decide) (by decide)).1
  · rfl
